import Mathlib

/-!
Shallow embedding of the directed-hypergraph motif engine
(`hypergraphx/motifs/directed_motifs.py`) and the parts of its
collaborators that the verified claims depend on.

Nodes are natural numbers.  A directed hyperedge is a pair of node lists
`(source, target)`.  A hypergraph is represented by its full edge list
(the only read operations the engine uses are `get_edges()` and
`get_edges(up_to=order)`).

The helper functions `_directed_motifs_ho_full`, `_directed_motifs_ho_not_full`,
`directed_diff_sum`, `norm_vector`, `directed_configuration_model` and the
hypergraph accessor `get_edges` live outside the analysed file; they are
modelled here from the specification (each such definition says so in its
doc comment).  `compute_directed_motifs` itself, including its nested
`_motifs_order_3` / `_motifs_order_4` helpers, is translated directly from
the source.
-/

/-- A directed hyperedge: a pair `(source nodes, target nodes)`. -/
abbrev Edge := List Nat × List Nat

/-- First-occurrence deduplication of a node list, threading the set of
nodes already seen (structural recursion, so that it evaluates in the
kernel). -/
def dedupAux (seen : List Nat) : List Nat → List Nat
  | [] => []
  | a :: t => if seen.contains a then dedupAux seen t else a :: dedupAux (a :: seen) t

/-- First-occurrence deduplication of a node list. -/
def nubFirst (l : List Nat) : List Nat := dedupAux [] l

/-- Modelled from the spec: the distinct nodes of a directed hyperedge,
`Source ∪ Target` (spec §3, Directed Hyperedge). -/
def nodesOf (e : Edge) : List Nat := nubFirst (e.1 ++ e.2)

/-- Modelled from the spec: the total node count of a hyperedge,
`|Source ∪ Target|` (spec §3, Order). -/
def edgeSize (e : Edge) : Nat := (nodesOf e).length

/-- Modelled from the spec: the hypergraph accessor `get_edges(up_to=order)`,
which is not part of the analysed file — it filters the edge list to
hyperedges with total node count at most `order` (spec §6). -/
def getEdgesUpTo (h : List Edge) (order : Nat) : List Edge :=
  h.filter (fun e => edgeSize e ≤ order)

/-- All distinct nodes touched by an edge list, in first-occurrence order. -/
def hyperNodes (edges : List Edge) : List Nat :=
  nubFirst (edges.foldr (fun e acc => nodesOf e ++ acc) [])

/-- All sublists of a list (each element either kept or dropped),
sublists that keep the head first. -/
def subLists : List Nat → List (List Nat)
  | [] => [[]]
  | a :: t => (subLists t).map (fun l => a :: l) ++ subLists t

/-- Modelled from the spec: the Subset-Enumerator candidate pool — node
subsets of size `k` drawn from the nodes of the edge list (spec §4.1);
subsets are represented as sublists of the deduplicated node list, which
makes the enumeration exhaustive and duplicate-free per distinct subset. -/
def candidateSubsets (edges : List Edge) (k : Nat) : List (List Nat) :=
  (subLists (hyperNodes edges)).filter (fun S => S.length == k)

/-- Modelled from the spec: the Induced Edge Set of a node subset — the
edges whose `Source ∪ Target` is fully contained in the subset (spec §3). -/
def inducedEdges (edges : List Edge) (S : List Nat) : List Edge :=
  edges.filter (fun e => (e.1 ++ e.2).all (fun v => S.contains v))

/-- Modelled from the spec: a subset is "full" when its induced edge set
contains at least one hyperedge whose own total node count equals the
subset size (spec §9, open question / §4.3). -/
def isFullSubset (edges : List Edge) (k : Nat) (S : List Nat) : Bool :=
  (inducedEdges edges S).any (fun e => edgeSize e == k)

/-- Modelled from the spec: the subsets visited and counted by the "full"
pass (spec §4.3). -/
def fullSubsets (edges : List Edge) (k : Nat) : List (List Nat) :=
  (candidateSubsets edges k).filter (fun S => isFullSubset edges k S)

/-- Modelled from the spec: the subsets counted by the "not-full" pass —
qualifying subsets (non-empty induced edge set) that are not already in
the Visited-State handed over by the full pass (spec §4.3, §3). -/
def notFullSubsets (edges : List Edge) (k : Nat) (visited : List (List Nat)) :
    List (List Nat) :=
  (candidateSubsets edges k).filter
    (fun S => decide (inducedEdges edges S ≠ [] ∧ S ∉ visited))

/-- Position of a node in a permutation of the subset's nodes. -/
def indexIn (p : List Nat) (v : Nat) : Nat := p.findIdx (fun x => x == v)

/-- Bitmask (as a sum of powers of two) of the positions, under
permutation `p`, of the nodes of one endpoint set. -/
def maskOf (p : List Nat) (l : List Nat) : Nat :=
  ((nubFirst l).map (fun v => 2 ^ indexIn p v)).sum

/-- Numeric code of one relabeled hyperedge under permutation `p`
(source mask and target mask packed into one number; masks are below 16
because the subset size is at most 4). -/
def edgeCode (p : List Nat) (e : Edge) : Nat := maskOf p e.1 * 16 + maskOf p e.2

/-- All insertions of a value into a list. -/
def insertEverywhere (v : Nat) : List Nat → List (List Nat)
  | [] => [[v]]
  | a :: t => (v :: a :: t) :: (insertEverywhere v t).map (fun l => a :: l)

/-- All permutations of a list (structural recursion, kernel-evaluable). -/
def perms : List Nat → List (List Nat)
  | [] => [[]]
  | a :: t => (perms t).flatMap (insertEverywhere a)

/-- Injective numeric code of a sorted list of edge codes (base-257 digits,
each shifted by one so that the encoding is injective). -/
def natListCode (l : List Nat) : Nat := l.foldl (fun a c => a * 257 + (c + 1)) 0

/-- Minimum of a list of naturals (0 for the empty list). -/
def minNat : List Nat → Nat
  | [] => 0
  | a :: t => t.foldl min a

/-- Modelled from the spec: the Pattern Canonicalizer — relabel the induced
edge set under every permutation of the subset's nodes, serialize each
relabeling into an order-independent numeric code (edge codes sorted, then
packed), and keep the smallest serialization (spec §4.2). -/
def canonicalSignature (S : List Nat) (es : List Edge) : Nat :=
  minNat ((perms S).map
    (fun p => natListCode (List.insertionSort (· ≤ ·) (es.map (edgeCode p)))))

/-- One step of a dict-style tally: increment the count of a signature,
inserting it at the end on first occurrence (Python dicts preserve
insertion order, so a table is an insertion-ordered association list). -/
def tallyInsert (t : List (Nat × Nat)) (s : Nat) : List (Nat × Nat) :=
  match t with
  | [] => [(s, 1)]
  | (k, c) :: rest => if k = s then (k, c + 1) :: rest else (k, c) :: tallyInsert rest s

/-- Tally a list of signatures into a Motif Count Table. -/
def tally (sigs : List Nat) : List (Nat × Nat) := sigs.foldl tallyInsert []

/-- Modelled from the spec: `_directed_motifs_ho_full` — the "full"
classification pass.  Returns the Motif Count Table of the full subsets
together with the Visited-State (every subset visited by this pass)
(spec §4.3). -/
def directedMotifsHoFull (edges : List Edge) (k : Nat) :
    List (Nat × Nat) × List (List Nat) :=
  (tally ((fullSubsets edges k).map (fun S => canonicalSignature S (inducedEdges edges S))),
   fullSubsets edges k)

/-- Modelled from the spec: `_directed_motifs_ho_not_full` — the "not-full"
classification pass, which skips every subset already in the supplied
Visited-State and returns the extended Visited-State (spec §4.3). -/
def directedMotifsHoNotFull (edges : List Edge) (k : Nat) (visited : List (List Nat)) :
    List (Nat × Nat) × List (List Nat) :=
  (tally ((notFullSubsets edges k visited).map
      (fun S => canonicalSignature S (inducedEdges edges S))),
   visited ++ notFullSubsets edges k visited)

/-- Dict-style insertion used by the order-4 merge (`mappa[sig] = cnt`):
an existing key keeps its position and gets the new value, a new key is
appended. -/
def dictInsert (m : List (Nat × Nat)) (kv : Nat × Nat) : List (Nat × Nat) :=
  match m with
  | [] => [kv]
  | (k, c) :: rest => if k = kv.1 then (k, kv.2) :: rest else (k, c) :: dictInsert rest kv

/-- The order-4 merge from the source (`_motifs_order_4`, lines 46–54):
write every `(sig, count)` pair of the full pass into an empty dict, then
every pair of the not-full pass, and read the dict back out in key
insertion order. -/
def mergeFullNotFull (full notFull : List (Nat × Nat)) : List (Nat × Nat) :=
  notFull.foldl dictInsert (full.foldl dictInsert [])

/-- `_motifs_order_3(edges)` from the source: run the full pass at order 3
and copy its `(signature, count)` pairs into the result list. -/
def motifsOrder3 (edges : List Edge) : List (Nat × Nat) :=
  ((directedMotifsHoFull edges 3).1).map (fun p => (p.1, p.2))

/-- `_motifs_order_4(edges)` from the source: run the full pass at order 4,
hand its Visited-State to the not-full pass, and merge the two result
lists dict-style. -/
def motifsOrder4 (edges : List Edge) : List (Nat × Nat) :=
  mergeFullNotFull (directedMotifsHoFull edges 4).1
    (directedMotifsHoNotFull edges 4 (directedMotifsHoFull edges 4).2).1

/-- First-match lookup of a signature's count in a Motif Count Table. -/
def lookupSig (t : List (Nat × Nat)) (s : Nat) : Option Nat :=
  (t.find? (fun q => q.1 == s)).map Prod.snd

/-- Count of a signature in a table, 0 when absent. -/
def lookupCount (t : List (Nat × Nat)) (s : Nat) : Nat := (lookupSig t s).getD 0

/-- Modelled from the spec: `directed_diff_sum` — for each class of the
observed table, in order, the vector over the null-model rounds of
`null_count − observed_count`, a class absent from a round contributing 0
(spec §4.5). -/
def directedDiffSum (observed : List (Nat × Nat))
    (results : List (List (Nat × Nat))) : List (List Int) :=
  observed.map (fun p => results.map (fun t => (lookupCount t p.1 : Int) - (p.2 : Int)))

/-- Modelled from the spec: `norm_vector` — reduce each class's difference
vector to a scalar via the Euclidean norm (spec §4.5); modelled as the
squared Euclidean norm to stay in exact arithmetic (the claims checked
here concern only the alignment of signatures, never the numeric value). -/
def normVector (delta : List (List Int)) : List Int :=
  delta.map (fun v => (v.map (fun x => x * x)).sum)

/-- The errors `compute_directed_motifs` can surface: the unsupported-order
`ValueError` raised by the driver itself, or a failure of the external
configuration-model collaborator (spec §7), carried with its payload
unmodified. -/
inductive MotifsError where
  | unsupportedOrder : MotifsError
  | configModelFailure : Nat → MotifsError
deriving DecidableEq, Repr

/-- The output artifact of `compute_directed_motifs`: the keys
`observed`, `config_model` and `norm_delta` of the returned dict. -/
structure MotifsOutput where
  observed : List (Nat × Nat)
  config_model : List (List (Nat × Nat))
  norm_delta : List (Nat × Int)
deriving DecidableEq, Repr

/-- The configuration-model loop of `compute_directed_motifs`
(lines 74–89): for rounds `i, i+1, …` (`n` rounds in all), ask the
collaborator `cm` for a randomized edge list built from the hypergraph's
full edge list and classify it; a collaborator failure aborts the loop and
is propagated, discarding any earlier rounds. -/
def runRounds (classify : List Edge → List (Nat × Nat))
    (cm : List Edge → Nat → Except Nat (List Edge)) (h : List Edge) :
    Nat → Nat → Except Nat (List (List (Nat × Nat)))
  | _, 0 => .ok []
  | i, n + 1 =>
    match cm h i with
    | .error e => .error e
    | .ok e1 =>
      match runRounds classify cm h (i + 1) n with
      | .error e => .error e
      | .ok rest => .ok (classify e1 :: rest)

/-- `compute_directed_motifs(hypergraph, order, runs_config_model)`
translated from the source.  The hypergraph is its full edge list `h`;
the external collaborator `directed_configuration_model` is the round-indexed
function `cm` (spec §6), failing with an opaque code.  The driver filters
the edge list with `get_edges(up_to=order)` for the observed table,
classifies per order (any other order is rejected before any
classification or round), runs the configuration-model rounds on the
unfiltered edge list, and assembles `norm_delta` by pairing the `i`-th
observed signature with the `i`-th normalized deviation. -/
def computeDirectedMotifs (h : List Edge)
    (cm : List Edge → Nat → Except Nat (List Edge))
    (order runs_config_model : Nat) : Except MotifsError MotifsOutput :=
  let edges := getEdgesUpTo h order
  if order = 3 ∨ order = 4 then
    let observed := if order = 3 then motifsOrder3 edges else motifsOrder4 edges
    match runRounds (fun e => if order = 3 then motifsOrder3 e else motifsOrder4 e)
        cm h 0 runs_config_model with
    | .error e => .error (.configModelFailure e)
    | .ok results =>
      let delta := directedDiffSum observed results
      let nd := normVector delta
      .ok ⟨observed, results,
        (List.range delta.length).map
          (fun i => ((observed.getD i (0, 0)).1, nd.getD i 0))⟩
  else .error .unsupportedOrder

/-- The source's default for `runs_config_model` (line 10 of the source). -/
def runsConfigModelDefault : Nat := 10

/-- Calling `compute_directed_motifs` without supplying
`runs_config_model`, which the source signature defaults. -/
def computeDirectedMotifsDefault (h : List Edge)
    (cm : List Edge → Nat → Except Nat (List Edge)) (order : Nat) :
    Except MotifsError MotifsOutput :=
  computeDirectedMotifs h cm order runsConfigModelDefault

/-- The observed table as `compute_directed_motifs` builds it: classify the
order-filtered edge list per order. -/
def observedTable (h : List Edge) (order : Nat) : List (Nat × Nat) :=
  if order = 3 then motifsOrder3 (getEdgesUpTo h order)
  else motifsOrder4 (getEdgesUpTo h order)

/-- The per-round tables when every configuration-model round succeeds and
round `i` yields the edge list `f i`. -/
def roundTables (order R : Nat) (f : Nat → List Edge) : List (List (Nat × Nat)) :=
  (List.range R).map (fun i => if order = 3 then motifsOrder3 (f i) else motifsOrder4 (f i))

/-- The `norm_delta` list as `compute_directed_motifs` assembles it: the
`i`-th observed signature paired with the `i`-th normalized deviation. -/
def normDeltaTable (observed : List (Nat × Nat)) (results : List (List (Nat × Nat))) :
    List (Nat × Int) :=
  (List.range (directedDiffSum observed results).length).map
    (fun i => ((observed.getD i (0, 0)).1, (normVector (directedDiffSum observed results)).getD i 0))

/-- The round indices `i, i+1, …, i+n-1` walked by `runRounds`. -/
def roundIdx : Nat → Nat → List Nat
  | _, 0 => []
  | i, n + 1 => i :: roundIdx (i + 1) n

/-- A concrete two-node hyperedge used by the witnesses. -/
def exEdge : Edge := ([1], [2])

/-- A concrete one-edge hypergraph used by the witnesses. -/
def exH : List Edge := [exEdge]

/-- A concrete always-succeeding configuration-model collaborator. -/
def exCM : List Edge → Nat → Except Nat (List Edge) := fun _ _ => .ok [exEdge]

/-- A second concrete collaborator, returning a different edge list. -/
def exCM2 : List Edge → Nat → Except Nat (List Edge) := fun _ _ => .ok []

/-- A concrete collaborator that fails in its first round with code 7. -/
def cmFail : List Edge → Nat → Except Nat (List Edge) :=
  fun _ i => if i = 0 then .error 7 else .ok [exEdge]

/-- The round-wise edge lists produced by `exCM`. -/
def exF : Nat → List Edge := fun _ => [exEdge]

/-- A concrete hypergraph whose only size-4 node subset is covered by two
small hyperedges and by no single spanning hyperedge. -/
def exEdges2 : List Edge := [([1], [2]), ([3], [4])]

/-- The fixed hypergraph of the determinism scenario:
edges `({1,2},{3})` and `({2,3},{1,4})`. -/
def detEdges : List Edge := [([1, 2], [3]), ([2, 3], [1, 4])]

/-! ## Helper lemmas -/

lemma lookupSig_dictInsert_self (m : List (Nat × Nat)) (k v : Nat) :
    lookupSig (dictInsert m (k, v)) k = some v := by
  induction m with
  | nil => simp [dictInsert, lookupSig, List.find?]
  | cons a t ih =>
    obtain ⟨a1, a2⟩ := a
    by_cases hk : a1 = k
    · subst hk
      simp [dictInsert, lookupSig, List.find?]
    · simp only [dictInsert, if_neg hk, lookupSig, List.find?]
      have : (a1 == k) = false := by simp [hk]
      rw [this]
      exact ih

lemma lookupSig_dictInsert_ne (m : List (Nat × Nat)) (k v s : Nat) (h : s ≠ k) :
    lookupSig (dictInsert m (k, v)) s = lookupSig m s := by
  have hks : (k == s) = false := beq_eq_false_iff_ne.mpr (Ne.symm h)
  induction m with
  | nil => simp [dictInsert, lookupSig, List.find?, hks]
  | cons a t ih =>
    obtain ⟨a1, a2⟩ := a
    by_cases hk : a1 = k
    · subst hk
      simp [dictInsert, lookupSig, List.find?, hks]
    · by_cases ha : a1 = s
      · subst ha
        simp [dictInsert, if_neg hk, lookupSig, List.find?]
      · have has : (a1 == s) = false := beq_eq_false_iff_ne.mpr ha
        simp only [dictInsert, if_neg hk, lookupSig, List.find?, has]
        exact ih

lemma lookupSig_foldl_dictInsert_not_mem (L : List (Nat × Nat)) (acc : List (Nat × Nat))
    (s : Nat) (h : s ∉ L.map Prod.fst) :
    lookupSig (L.foldl dictInsert acc) s = lookupSig acc s := by
  induction L generalizing acc with
  | nil => rfl
  | cons a t ih =>
    obtain ⟨k, v⟩ := a
    simp only [List.map_cons, List.mem_cons, not_or] at h
    rw [List.foldl_cons, ih (dictInsert acc (k, v)) h.2]
    exact lookupSig_dictInsert_ne acc k v s h.1

lemma lookupSig_foldl_dictInsert (L : List (Nat × Nat)) (acc : List (Nat × Nat))
    (s b : Nat) (hnodup : (L.map Prod.fst).Nodup) (hb : lookupSig L s = some b) :
    lookupSig (L.foldl dictInsert acc) s = some b := by
  induction L generalizing acc with
  | nil => exact absurd hb (by simp [lookupSig])
  | cons a t ih =>
    obtain ⟨k, v⟩ := a
    simp only [List.map_cons, List.nodup_cons] at hnodup
    by_cases hs : k = s
    · subst hs
      have hbv : b = v := by
        simp [lookupSig, List.find?] at hb
        omega
      subst hbv
      rw [List.foldl_cons,
        lookupSig_foldl_dictInsert_not_mem t (dictInsert acc (k, b)) k hnodup.1]
      exact lookupSig_dictInsert_self acc k b
    · have hks : (k == s) = false := beq_eq_false_iff_ne.mpr hs
      have hb' : lookupSig t s = some b := by
        simpa only [lookupSig, List.find?, hks] using hb
      rw [List.foldl_cons]
      exact ih (dictInsert acc (k, v)) hnodup.2 hb'

lemma roundIdx_eq_range_map : ∀ (n i : Nat), roundIdx i n = (List.range n).map (fun j => i + j) := by
  intro n
  induction n with
  | zero => intro i; rfl
  | succ n ih =>
    intro i
    rw [List.range_succ_eq_map]
    simp only [roundIdx, List.map_cons, List.map_map, Nat.add_zero, List.cons.injEq, true_and]
    rw [ih (i + 1)]
    apply List.map_congr_left
    intro j _
    simp [Function.comp]
    omega

lemma roundIdx_zero (n : Nat) : roundIdx 0 n = List.range n := by
  rw [roundIdx_eq_range_map]
  simp

lemma runRounds_ok (classify : List Edge → List (Nat × Nat))
    (cm : List Edge → Nat → Except Nat (List Edge)) (h : List Edge) (f : Nat → List Edge) :
    ∀ (n i : Nat), (∀ j, i ≤ j → j < i + n → cm h j = .ok (f j)) →
      runRounds classify cm h i n = .ok ((roundIdx i n).map (fun j => classify (f j))) := by
  intro n
  induction n with
  | zero => intro i _; rfl
  | succ n ih =>
    intro i hcm
    have h0 : cm h i = .ok (f i) := hcm i le_rfl (by omega)
    have hrest := ih (i + 1) (fun j hj1 hj2 => hcm j (by omega) (by omega))
    simp [runRounds, h0, hrest, roundIdx]

lemma runRounds_error (classify : List Edge → List (Nat × Nat))
    (cm : List Edge → Nat → Except Nat (List Edge)) (h : List Edge) (f : Nat → List Edge)
    (jf err : Nat) :
    ∀ (n i : Nat), i ≤ jf → jf < i + n →
      (∀ j, i ≤ j → j < jf → cm h j = .ok (f j)) → cm h jf = .error err →
      runRounds classify cm h i n = .error err := by
  intro n
  induction n with
  | zero => intro i h1 h2 _ _; exact absurd h2 (by omega)
  | succ n ih =>
    intro i h1 h2 hok herr
    by_cases hij : i = jf
    · subst hij
      simp [runRounds, herr]
    · have h0 : cm h i = .ok (f i) := hok i le_rfl (by omega)
      have hrest := ih (i + 1) (by omega) (by omega) (fun j hj1 hj2 => hok j (by omega) hj2) herr
      simp [runRounds, h0, hrest]

lemma runRounds_congr (classify : List Edge → List (Nat × Nat))
    (cm cm' : List Edge → Nat → Except Nat (List Edge)) (h : List Edge)
    (hc : ∀ j, cm' h j = cm h j) :
    ∀ (n i : Nat), runRounds classify cm' h i n = runRounds classify cm h i n := by
  intro n
  induction n with
  | zero => intro i; rfl
  | succ n ih =>
    intro i
    simp only [runRounds, hc i, ih (i + 1)]

lemma computeDirectedMotifs_eq_unsupported (h : List Edge)
    (cm : List Edge → Nat → Except Nat (List Edge)) (order R : Nat)
    (hno : ¬(order = 3 ∨ order = 4)) :
    computeDirectedMotifs h cm order R = .error .unsupportedOrder := by
  simp only [computeDirectedMotifs]
  rw [if_neg hno]

lemma computeDirectedMotifs_eq_of_rounds_error (h : List Edge)
    (cm : List Edge → Nat → Except Nat (List Edge)) (order R e : Nat)
    (horder : order = 3 ∨ order = 4)
    (hr : runRounds (fun e => if order = 3 then motifsOrder3 e else motifsOrder4 e)
        cm h 0 R = .error e) :
    computeDirectedMotifs h cm order R = .error (.configModelFailure e) := by
  simp only [computeDirectedMotifs]
  rw [if_pos horder, hr]

lemma computeDirectedMotifs_eq_of_rounds_ok (h : List Edge)
    (cm : List Edge → Nat → Except Nat (List Edge)) (order R : Nat)
    (results : List (List (Nat × Nat)))
    (horder : order = 3 ∨ order = 4)
    (hr : runRounds (fun e => if order = 3 then motifsOrder3 e else motifsOrder4 e)
        cm h 0 R = .ok results) :
    computeDirectedMotifs h cm order R =
      .ok ⟨observedTable h order, results, normDeltaTable (observedTable h order) results⟩ := by
  simp only [computeDirectedMotifs]
  rw [if_pos horder, hr]
  rfl

lemma computeDirectedMotifs_ok_eq (h : List Edge)
    (cm : List Edge → Nat → Except Nat (List Edge)) (order R : Nat) (f : Nat → List Edge)
    (horder : order = 3 ∨ order = 4) (hcm : ∀ i, i < R → cm h i = .ok (f i)) :
    computeDirectedMotifs h cm order R =
      .ok ⟨observedTable h order, roundTables order R f,
        normDeltaTable (observedTable h order) (roundTables order R f)⟩ := by
  have hrr : runRounds (fun e => if order = 3 then motifsOrder3 e else motifsOrder4 e)
      cm h 0 R = .ok (roundTables order R f) := by
    rw [runRounds_ok _ cm h f R 0 (fun j hj1 hj2 => hcm j (by omega)), roundIdx_zero]
    rfl
  exact computeDirectedMotifs_eq_of_rounds_ok h cm order R _ horder hrr

lemma computeDirectedMotifs_ok_inv (h : List Edge)
    (cm : List Edge → Nat → Except Nat (List Edge)) (order R : Nat) (out : MotifsOutput)
    (hok : computeDirectedMotifs h cm order R = .ok out) :
    out.observed = observedTable h order ∧
    out.norm_delta = normDeltaTable out.observed out.config_model := by
  by_cases horder : order = 3 ∨ order = 4
  · cases hr : runRounds (fun e => if order = 3 then motifsOrder3 e else motifsOrder4 e)
        cm h 0 R with
    | error e =>
      rw [computeDirectedMotifs_eq_of_rounds_error h cm order R e horder hr] at hok
      exact absurd hok (by simp)
    | ok results =>
      rw [computeDirectedMotifs_eq_of_rounds_ok h cm order R results horder hr] at hok
      obtain rfl := (Except.ok.inj hok).symm
      exact ⟨rfl, rfl⟩
  · rw [computeDirectedMotifs_eq_unsupported h cm order R horder] at hok
    exact absurd hok (by simp)

lemma directedDiffSum_length (observed : List (Nat × Nat))
    (results : List (List (Nat × Nat))) :
    (directedDiffSum observed results).length = observed.length := by
  simp [directedDiffSum]

lemma getD_fst_range (l : List (Nat × Nat)) :
    (List.range l.length).map (fun i => (l.getD i (0, 0)).1) = l.map Prod.fst := by
  induction l with
  | nil => rfl
  | cons a t ih =>
    rw [List.length_cons, List.range_succ_eq_map, List.map_cons, List.map_map, List.map_cons]
    refine congrArg₂ _ rfl ?_
    rw [← ih]
    apply List.map_congr_left
    intro j _
    simp [Function.comp]

lemma normDeltaTable_fst (observed : List (Nat × Nat)) (results : List (List (Nat × Nat))) :
    (normDeltaTable observed results).map Prod.fst = observed.map Prod.fst := by
  rw [normDeltaTable, directedDiffSum_length, List.map_map, ← getD_fst_range]
  apply List.map_congr_left
  intro j _
  rfl

lemma normDeltaTable_length (observed : List (Nat × Nat)) (results : List (List (Nat × Nat))) :
    (normDeltaTable observed results).length = observed.length := by
  rw [normDeltaTable, List.length_map, List.length_range, directedDiffSum_length]

lemma roundTables_length (order R : Nat) (f : Nat → List Edge) :
    (roundTables order R f).length = R := by
  simp [roundTables]

lemma roundTables_getD (order R : Nat) (f : Nat → List Edge) (i : Nat) (hi : i < R) :
    (roundTables order R f).getD i [] =
      (if order = 3 then motifsOrder3 (f i) else motifsOrder4 (f i)) := by
  simp [roundTables, List.getD_eq_getElem?_getD, List.getElem?_map, List.getElem?_range hi]

/-! ## Claim theorems -/

/-- Claim C1, counterexample: the order-4 merge of `_motifs_order_4` does
not accumulate counts of a signature produced by both passes — with the
full pass reporting signature 5 with count 2 and the not-full pass
reporting signature 5 with count 3, the merged table records 3 (the
not-full pass's count, replacing the full pass's), not the combined 5. -/
theorem order4_merge_accumulation_counterexample :
    lookupSig [(5, 2)] 5 = some 2 ∧ lookupSig [(5, 3)] 5 = some 3 ∧
    lookupSig (mergeFullNotFull [(5, 2)] [(5, 3)]) 5 = some 3 ∧
    ¬ lookupSig (mergeFullNotFull [(5, 2)] [(5, 3)]) 5 = some (2 + 3) := by
  decide

/-- Claim C1, amended: the order-4 merge is last-write-wins — for any
signature reported by the not-full pass (with duplicate-free signature
keys, as a tally produces), the merged table records the not-full pass's
count, overwriting any count the full pass reported for that signature. -/
theorem order4_merge_last_write_wins (full notFull : List (Nat × Nat)) (s b : Nat)
    (hnodup : (notFull.map Prod.fst).Nodup) (hb : lookupSig notFull s = some b) :
    lookupSig (mergeFullNotFull full notFull) s = some b :=
  lookupSig_foldl_dictInsert notFull (full.foldl dictInsert []) s b hnodup hb

/-- Witness for the amended claim C1 at concrete pass outputs. -/
theorem order4_merge_last_write_wins_witness :
    lookupSig (mergeFullNotFull [(5, 2)] [(5, 3)]) 5 = some 3 :=
  order4_merge_last_write_wins [(5, 2)] [(5, 3)] 5 3 (by decide) (by decide)

/-- Claim C2: whenever `compute_directed_motifs` returns an output, the
`norm_delta` list has exactly the observed list's class signatures, in
the same positional order, and in particular the same length. -/
theorem norm_delta_aligned (h : List Edge)
    (cm : List Edge → Nat → Except Nat (List Edge)) (order R : Nat) (out : MotifsOutput)
    (hok : computeDirectedMotifs h cm order R = .ok out) :
    out.norm_delta.map Prod.fst = out.observed.map Prod.fst ∧
    out.norm_delta.length = out.observed.length := by
  obtain ⟨_, hnd⟩ := computeDirectedMotifs_ok_inv h cm order R out hok
  rw [hnd]
  exact ⟨normDeltaTable_fst _ _, normDeltaTable_length _ _⟩

/-- Witness for claim C2 at a concrete one-edge hypergraph and one round. -/
theorem norm_delta_aligned_witness :
    (MotifsOutput.mk [] [[]] []).norm_delta.map Prod.fst =
      (MotifsOutput.mk [] [[]] []).observed.map Prod.fst ∧
    (MotifsOutput.mk [] [[]] []).norm_delta.length =
      (MotifsOutput.mk [] [[]] []).observed.length :=
  norm_delta_aligned exH exCM 3 1 (MotifsOutput.mk [] [[]] []) rfl

/-- Claim C3: for any order other than 3 and 4 the driver fails with the
unsupported-order error, independently of the configuration-model
collaborator (so no round and no classification happens); for orders 3
and 4 this error is never produced. -/
theorem unsupported_order_rejected (h : List Edge)
    (cm cm' : List Edge → Nat → Except Nat (List Edge)) (order R : Nat) :
    (¬(order = 3 ∨ order = 4) →
      computeDirectedMotifs h cm order R = .error .unsupportedOrder ∧
      computeDirectedMotifs h cm order R = computeDirectedMotifs h cm' order R) ∧
    ((order = 3 ∨ order = 4) →
      computeDirectedMotifs h cm order R ≠ .error .unsupportedOrder) := by
  constructor
  · intro hno
    refine ⟨computeDirectedMotifs_eq_unsupported h cm order R hno, ?_⟩
    rw [computeDirectedMotifs_eq_unsupported h cm order R hno,
      computeDirectedMotifs_eq_unsupported h cm' order R hno]
  · intro horder
    cases hr : runRounds (fun e => if order = 3 then motifsOrder3 e else motifsOrder4 e)
        cm h 0 R with
    | error e =>
      rw [computeDirectedMotifs_eq_of_rounds_error h cm order R e horder hr]
      simp
    | ok results =>
      rw [computeDirectedMotifs_eq_of_rounds_ok h cm order R results horder hr]
      simp

/-- Witness for claim C3: order 5 is rejected with the unsupported-order
error (for any collaborator), order 3 is not. -/
theorem unsupported_order_rejected_witness :
    (computeDirectedMotifs exH exCM 5 2 = .error .unsupportedOrder ∧
     computeDirectedMotifs exH exCM 5 2 = computeDirectedMotifs exH exCM2 5 2) ∧
    computeDirectedMotifs exH exCM 3 1 ≠ .error .unsupportedOrder :=
  ⟨(unsupported_order_rejected exH exCM exCM2 5 2).1 (by decide),
   (unsupported_order_rejected exH exCM exCM2 3 1).2 (Or.inl rfl)⟩

/-- Claim C4: the observed table is computed from the order-filtered edge
list `get_edges(up_to=order)`, while every configuration-model round
classifies the collaborator's output for the full, unfiltered edge list
with no order filtering applied; moreover the result depends on the
collaborator only through its value at the full edge list. -/
theorem observed_filtered_rounds_unfiltered (h : List Edge)
    (cm : List Edge → Nat → Except Nat (List Edge)) (order R : Nat) (f : Nat → List Edge)
    (horder : order = 3 ∨ order = 4) (hcm : ∀ i, i < R → cm h i = .ok (f i)) :
    ∃ out, computeDirectedMotifs h cm order R = .ok out ∧
      out.observed = (if order = 3 then motifsOrder3 (getEdgesUpTo h order)
        else motifsOrder4 (getEdgesUpTo h order)) ∧
      out.config_model = (List.range R).map
        (fun i => if order = 3 then motifsOrder3 (f i) else motifsOrder4 (f i)) ∧
      ∀ cm', (∀ i, cm' h i = cm h i) →
        computeDirectedMotifs h cm' order R = computeDirectedMotifs h cm order R := by
  refine ⟨_, computeDirectedMotifs_ok_eq h cm order R f horder hcm, rfl, rfl, ?_⟩
  intro cm' hc
  simp only [computeDirectedMotifs]
  rw [runRounds_congr (fun e => if order = 3 then motifsOrder3 e else motifsOrder4 e)
    cm cm' h hc R 0]

/-- Witness for claim C4 at a concrete one-edge hypergraph and one round. -/
theorem observed_filtered_rounds_unfiltered_witness :
    ∃ out, computeDirectedMotifs exH exCM 3 1 = .ok out ∧
      out.observed = (if 3 = 3 then motifsOrder3 (getEdgesUpTo exH 3)
        else motifsOrder4 (getEdgesUpTo exH 3)) ∧
      out.config_model = (List.range 1).map
        (fun i => if 3 = 3 then motifsOrder3 (exF i) else motifsOrder4 (exF i)) ∧
      ∀ cm', (∀ i, cm' exH i = exCM exH i) →
        computeDirectedMotifs exH cm' 3 1 = computeDirectedMotifs exH exCM 3 1 :=
  observed_filtered_rounds_unfiltered exH exCM 3 1 exF (Or.inl rfl) (fun _ _ => rfl)

/-- Claim C5: at order 4 every qualifying node subset is classified by
exactly one of the two passes.  At most one: any subset counted by the
not-full pass (which receives the full pass's Visited-State) is not
among the subsets the full pass counted.  At least one: any enumerated
subset of size 4 with a non-empty induced edge set is counted by the
full pass or by the not-full pass. -/
theorem order4_pass_exactly_one (edges : List Edge) (S : List Nat) :
    (S ∈ notFullSubsets edges 4 (directedMotifsHoFull edges 4).2 →
      S ∉ fullSubsets edges 4) ∧
    (S ∈ candidateSubsets edges 4 → inducedEdges edges S ≠ [] →
      S ∈ fullSubsets edges 4 ∨
        S ∈ notFullSubsets edges 4 (directedMotifsHoFull edges 4).2) := by
  constructor
  · intro h
    have h2 := (List.mem_filter.mp h).2
    exact (of_decide_eq_true h2).2
  · intro hcand hind
    by_cases hf : S ∈ fullSubsets edges 4
    · exact Or.inl hf
    · refine Or.inr (List.mem_filter.mpr ⟨hcand, ?_⟩)
      exact decide_eq_true ⟨hind, hf⟩

/-- Witness for claim C5: the qualifying subset {1,2,3,4}, covered by two
small hyperedges and by no spanning hyperedge, is counted by one of the
two passes (here the not-full pass) and not by the full pass. -/
theorem order4_pass_exactly_one_witness :
    ([1, 2, 3, 4] ∈ candidateSubsets exEdges2 4) ∧
    inducedEdges exEdges2 [1, 2, 3, 4] ≠ [] ∧
    ([1, 2, 3, 4] ∈ fullSubsets exEdges2 4 ∨
      [1, 2, 3, 4] ∈ notFullSubsets exEdges2 4 (directedMotifsHoFull exEdges2 4).2) ∧
    [1, 2, 3, 4] ∉ fullSubsets exEdges2 4 :=
  ⟨by decide, by decide,
   (order4_pass_exactly_one exEdges2 [1, 2, 3, 4]).2 (by decide) (by decide),
   (order4_pass_exactly_one exEdges2 [1, 2, 3, 4]).1 (by decide)⟩

/-- Claim C6: a collaborator failure in some round (here the first failing
round) makes `compute_directed_motifs` fail with that very failure code —
no retry, no substitute edge list, no partial output. -/
theorem config_model_failure_propagates (h : List Edge)
    (cm : List Edge → Nat → Except Nat (List Edge)) (order R j err : Nat)
    (f : Nat → List Edge) (horder : order = 3 ∨ order = 4) (hj : j < R)
    (hok : ∀ i, i < j → cm h i = .ok (f i)) (herr : cm h j = .error err) :
    computeDirectedMotifs h cm order R = .error (.configModelFailure err) :=
  computeDirectedMotifs_eq_of_rounds_error h cm order R err horder
    (runRounds_error _ cm h f j err R 0 (by omega) (by omega)
      (fun i _ h2 => hok i h2) herr)

/-- Witness for claim C6: a collaborator failing in round 0 with code 7
makes the whole computation fail with code 7. -/
theorem config_model_failure_propagates_witness :
    computeDirectedMotifs exH cmFail 3 2 = .error (.configModelFailure 7) :=
  config_model_failure_propagates exH cmFail 3 2 0 7 exF (Or.inl rfl) (by omega)
    (fun i hi => absurd hi (by omega)) rfl

/-- Claim C7: with `R ≥ 1` rounds all succeeding, the `config_model` entry
is a list of exactly `R` tables, the `i`-th being the classification of
round `i`'s randomized edge list (round order preserved). -/
theorem config_model_round_count (h : List Edge)
    (cm : List Edge → Nat → Except Nat (List Edge)) (order R : Nat) (f : Nat → List Edge)
    (horder : order = 3 ∨ order = 4) (_hR : 1 ≤ R)
    (hcm : ∀ i, i < R → cm h i = .ok (f i)) :
    ∃ out, computeDirectedMotifs h cm order R = .ok out ∧
      out.config_model.length = R ∧
      ∀ i, i < R → out.config_model.getD i [] =
        (if order = 3 then motifsOrder3 (f i) else motifsOrder4 (f i)) := by
  refine ⟨_, computeDirectedMotifs_ok_eq h cm order R f horder hcm,
    roundTables_length order R f, ?_⟩
  intro i hi
  exact roundTables_getD order R f i hi

/-- Witness for claim C7 at two rounds. -/
theorem config_model_round_count_witness :
    ∃ out, computeDirectedMotifs exH exCM 3 2 = .ok out ∧
      out.config_model.length = 2 ∧
      ∀ i, i < 2 → out.config_model.getD i [] =
        (if 3 = 3 then motifsOrder3 (exF i) else motifsOrder4 (exF i)) :=
  config_model_round_count exH exCM 3 2 exF (Or.inl rfl) (by omega) (fun i _ => rfl)

/-- Claim C8: at order 3 the observed table is exactly the list of
`(signature, count)` pairs returned by the full pass — `_motifs_order_3`
only copies the full pass's pairs, with no not-full pass and no merge. -/
theorem order3_full_pass_only (edges : List Edge) :
    motifsOrder3 edges = (directedMotifsHoFull edges 3).1 := by
  simp [motifsOrder3]

/-- Claim C9: classification is deterministic — two runs of the order-3
classifier on the same edge list (the embedded classifier is a pure
function with no hidden randomness) produce identical tables. -/
theorem classification_deterministic (e₁ e₂ : List Edge) (h : e₁ = e₂) :
    motifsOrder3 e₁ = motifsOrder3 e₂ := by
  rw [h]

/-- Witness for claim C9 at the spec's fixed hypergraph
`[({1,2},{3}), ({2,3},{1,4})]`. -/
theorem classification_deterministic_witness :
    detEdges = detEdges ∧ motifsOrder3 detEdges = motifsOrder3 detEdges :=
  ⟨rfl, classification_deterministic detEdges detEdges rfl⟩

/-- Claim C10: calling `compute_directed_motifs` without supplying
`runs_config_model` is calling it with 10 rounds, and (when the rounds
succeed) yields exactly 10 configuration-model tables. -/
theorem default_runs_ten (h : List Edge)
    (cm : List Edge → Nat → Except Nat (List Edge)) (order : Nat) (f : Nat → List Edge)
    (horder : order = 3 ∨ order = 4) (hcm : ∀ i, i < 10 → cm h i = .ok (f i)) :
    computeDirectedMotifsDefault h cm order = computeDirectedMotifs h cm order 10 ∧
    ∃ out, computeDirectedMotifsDefault h cm order = .ok out ∧
      out.config_model.length = 10 := by
  refine ⟨rfl, ⟨_, computeDirectedMotifs_ok_eq h cm order 10 f horder hcm,
    roundTables_length order 10 f⟩⟩

/-- Witness for claim C10 at a concrete one-edge hypergraph. -/
theorem default_runs_ten_witness :
    computeDirectedMotifsDefault exH exCM 3 = computeDirectedMotifs exH exCM 3 10 ∧
    ∃ out, computeDirectedMotifsDefault exH exCM 3 = .ok out ∧
      out.config_model.length = 10 :=
  default_runs_ten exH exCM 3 exF (Or.inl rfl) (fun _ _ => rfl)
